import Mathlib

/-!
Shallow embedding of the Majjen cooperative scheduler
(`src/libs/majjen.c`, `src/libs/majjen.h`) and of the monotonic timer
utility (`src/utils/timer.c`), with proofs checking the natural-language
specification of the repository against this embedding.

Modelling conventions:
* A task's opaque state pointer is modelled by a value of a type
  parameter `σ`; a task function body is modelled by the sequence of
  scheduler-visible effects one invocation performs (writes through its
  own state pointer, calls to `mj_scheduler_task_remove`).
* The compile-time array bound `MAX_TASKS` (3 in `majjen.h`) appears as
  the length of the scheduler's `task_list`; `mj_scheduler_create` takes
  the bound as an argument so statements can quantify over capacities.
* `task_count` is a C `size_t`, modelled as `Nat` (the code only ever
  increments it from 0 and guards the decrement with `> 0`); C return
  codes are `Int` (`0` success, `-1` failure).
* The `free` / callback activity of `mj_scheduler_task_remove` and
  `mj_scheduler_destroy` is recorded as a list of `mj_event`s, so that
  "performs no deallocation" and "invokes the cleanup hook" become
  checkable statements.
* The C `current_task` field is an `mj_task**` pointing at a slot of
  `task_list`; it is modelled as an optional slot index.
* The nondeterministic `clock_gettime` result is passed as an explicit
  `now` argument to the timer functions.
-/

namespace Majjen

/-- Observable deallocation / callback events of the scheduler code.
`invoke_cleanup` is the event the specification's optional `cleanup`
hook would produce; the code in `majjen.c` never emits it. -/
inductive mj_event : Type where
  | free_state : mj_event
  | free_task : mj_event
  | invoke_cleanup : mj_event
  | free_scheduler : mj_event
  deriving DecidableEq

/-- One scheduler-visible effect performed by a task function body:
either a write through the task's own state pointer (`*state = v`) or a
call to `mj_scheduler_task_remove(scheduler)`. -/
inductive task_eff (σ : Type) : Type where
  | setState : σ → task_eff σ
  | callRemove : task_eff σ

/-- The semantics of a C `mj_task_fn`: given the value currently stored
behind the task's state pointer, the list of scheduler-visible effects
the invocation performs, in order. -/
def task_body (σ : Type) : Type := σ → List (task_eff σ)

/-- `mj_task` from majjen.c lines 8-11: a (nullable) function pointer
and the opaque state pointer.  There is no other field. -/
structure mj_task (σ : Type) : Type where
  task : Option (task_body σ)
  state : σ

/-- `mj_scheduler` from majjen.c lines 13-17: the fixed-size slot array
(`task_list`, all entries nullable), the `mj_task** current_task`
(modelled as the index of the slot it points at), and `task_count`. -/
structure mj_scheduler (σ : Type) : Type where
  task_list : List (Option (mj_task σ))
  current_task : Option Nat
  task_count : Nat

/-- The `MAX_TASKS` macro from majjen.h. -/
def MAX_TASKS : Nat := 3

variable {σ : Type} {α : Type}

/-- Array read `l[i]` for the slot array. -/
def nth : List α → Nat → Option α
  | [], _ => none
  | a :: _, 0 => some a
  | _ :: l, n + 1 => nth l n

/-- Array write `l[i] = v` for the slot array (out-of-range writes
cannot occur in the embedded code paths and leave the list unchanged). -/
def setn : List α → Nat → α → List α
  | [], _, _ => []
  | _ :: l, 0, v => v :: l
  | a :: l, n + 1, v => a :: setn l n v

/-- `mj_scheduler_create` (majjen.c lines 84-91): a `calloc`-zeroed
scheduler — every slot `NULL`, `current_task == NULL`, `task_count == 0`.
The capacity argument models the compile-time constant `MAX_TASKS`;
allocation failure (`NULL` return, `errno = ENOMEM`) is not modelled. -/
def mj_scheduler_create (σ : Type) (cap : Nat) : mj_scheduler σ :=
  ⟨List.replicate cap none, none, 0⟩

/-- `mj_scheduler_destroy` (majjen.c lines 96-108): `-1` with
`errno = EINVAL` on a `NULL` handle, otherwise `free(shed)` and `0` —
unconditionally, with no check of `task_count`. -/
def mj_scheduler_destroy (shed : Option (mj_scheduler σ)) : Int × List mj_event :=
  match shed with
  | none => (-1, [])
  | some _ => (0, [mj_event.free_scheduler])

/-- The slot-scan loop of `mj_scheduler_task_add` (majjen.c lines
127-133): find the first `NULL` entry and store the new task there;
`none` when every slot is occupied ("SHOULD NEVER GET HERE"). -/
def place_task : List (Option (mj_task σ)) → mj_task σ → Option (List (Option (mj_task σ)))
  | [], _ => none
  | none :: rest, t => some (some t :: rest)
  | some x :: rest, t => (place_task rest t).map (fun l => some x :: l)

/-- `mj_scheduler_task_add` (majjen.c lines 114-136).  Note what the C
code does NOT do: it performs no null check on `scheduler` (a `NULL`
handle is dereferenced — undefined behaviour, not representable here,
so the handle is passed by value) and no null check on `task` (a `NULL`
function pointer is stored as-is, hence the `Option` in `mj_task.task`).
The only guard is the capacity test `task_count >= MAX_TASKS`. -/
def mj_scheduler_task_add (scheduler : mj_scheduler σ) (task : Option (task_body σ))
    (state : σ) : Int × mj_scheduler σ :=
  if scheduler.task_list.length ≤ scheduler.task_count then
    (-1, scheduler)
  else
    let new_task : mj_task σ := ⟨task, state⟩
    match place_task scheduler.task_list new_task with
    | some l => (0, ⟨l, scheduler.current_task, scheduler.task_count + 1⟩)
    | none => (-1, scheduler)

/-- `mj_scheduler_task_remove` (majjen.c lines 138-160).  Fails with
`-1` when `current_task == NULL` or `*current_task == NULL` (the `NULL`
scheduler-handle guard of the same line is subsumed by passing the
scheduler by value).  On success: `free(task->state)`, `free(task)`,
`*current_task = NULL`, `current_task = NULL`, and a guarded decrement
of `task_count`.  The returned event list records the two `free` calls;
no callback of any kind is invoked. -/
def mj_scheduler_task_remove (scheduler : mj_scheduler σ) :
    Int × mj_scheduler σ × List mj_event :=
  match scheduler.current_task with
  | none => (-1, scheduler, [])
  | some i =>
    match nth scheduler.task_list i with
    | some (some _task) =>
      let l := setn scheduler.task_list i none
      let cnt := if scheduler.task_count > 0 then scheduler.task_count - 1
                 else scheduler.task_count
      (0, ⟨l, none, cnt⟩, [mj_event.free_state, mj_event.free_task])
    | _ => (-1, scheduler, [])

/-- Interpretation of one task-body effect, performed while the run
loop has `current_task = &task_list[i]`.  A `setState` writes through
the task's own state pointer, i.e. updates slot `i`'s stored state (a
write after the slot was vacated would be a use-after-free and touches
no scheduler state); a `callRemove` is a call of
`mj_scheduler_task_remove`, whose return code the straight-line body
discards. -/
def interp_eff (i : Nat) (s : mj_scheduler σ) : task_eff σ → mj_scheduler σ
  | task_eff.setState v =>
    match nth s.task_list i with
    | some (some t) => ⟨setn s.task_list i (some ⟨t.task, v⟩), s.current_task, s.task_count⟩
    | _ => s
  | task_eff.callRemove => (mj_scheduler_task_remove s).2.1

/-- The descending index sequence of the C loop
`for (int i = MAX_TASKS - 1; i >= 0; i--)`:
`downFrom n = [n-1, n-2, ..., 0]`. -/
def downFrom : Nat → List Nat
  | 0 => []
  | n + 1 => n :: downFrom n

/-- The body of one pass of `mj_scheduler_run` (majjen.c lines 50-68),
iterated over the given index sequence.  For each index: skip a `NULL`
slot; otherwise read the slot's function and state, set
`current_task = &task_list[i]`, call the function, then reset
`current_task = NULL`.  Calling a `NULL` function pointer is undefined
behaviour, modelled as `none`.  Returns the final state and the trace
of slot indices whose task was invoked, in invocation order. -/
def pass_loop : mj_scheduler σ → List Nat → Option (mj_scheduler σ × List Nat)
  | s, [] => some (s, [])
  | s, i :: rest =>
    match nth s.task_list i with
    | some (some t) =>
      match t.task with
      | some fn =>
        let s1 : mj_scheduler σ := ⟨s.task_list, some i, s.task_count⟩
        let s2 := (fn t.state).foldl (fun acc e => interp_eff i acc e) s1
        let s3 : mj_scheduler σ := ⟨s2.task_list, none, s2.task_count⟩
        match pass_loop s3 rest with
        | some (s4, tr) => some (s4, i :: tr)
        | none => none
      | none => none
    | _ => pass_loop s rest

/-- One full pass: sweep the slot array from the last index down to 0,
exactly as the C `for` loop does. -/
def mj_run_pass (s : mj_scheduler σ) : Option (mj_scheduler σ × List Nat) :=
  pass_loop s (downFrom s.task_list.length)

/-- The `while (scheduler->task_count > 0)` loop of `mj_scheduler_run`
(majjen.c lines 44-78), with explicit fuel: `some (n, s')` means the
loop exited after exactly `n` complete passes within the fuel bound,
leaving state `s'`; `none` means the fuel ran out (or a pass hit
undefined behaviour).  The entry guard for `task_count == 0` in the C
code merely prints and returns, which coincides with the `while` test
failing immediately. -/
def mj_scheduler_run : Nat → mj_scheduler σ → Option (Nat × mj_scheduler σ)
  | 0, s => if s.task_count = 0 then some (0, s) else none
  | fuel + 1, s =>
    if s.task_count = 0 then some (0, s)
    else
      match mj_run_pass s with
      | some (s', _) =>
        match mj_scheduler_run fuel s' with
        | some (n, s'') => some (n + 1, s'')
        | none => none
      | none => none

/-- Number of occupied (non-`NULL`) slots of a scheduler. -/
def count_occupied (s : mj_scheduler σ) : Nat :=
  (s.task_list.filter Option.isSome).length

/-!  Timer utility, from `src/utils/timer.c`. -/

/-- `struct timespec`: seconds and nanoseconds, both signed integers
(`time_t` / `long`).  The arithmetic below stays far inside the
`int64_t` range for every value `clock_gettime` can produce, so plain
`Int` is used. -/
structure timespec : Type where
  tv_sec : Int
  tv_nsec : Int

/-- `clock_timer_t` from timer.h. -/
structure clock_timer_t : Type where
  start : timespec
  stop : timespec
  running : Bool

/-- `clock_timer_diff_ns` (timer.c lines 36-43): the signed difference
in nanoseconds, clamped below at 0. -/
def clock_timer_diff_ns (e s : timespec) : Int :=
  let sd : Int := e.tv_sec - s.tv_sec
  let nsd : Int := e.tv_nsec - s.tv_nsec
  let total : Int := sd * 1000000000 + nsd
  if total < 0 then 0 else total

/-- `clock_timer_get_effective_end` (timer.c lines 21-32) on a non-null
timer: the current `clock_gettime` value (the explicit `now` argument)
while running, the stored stop time otherwise. -/
def clock_timer_get_effective_end (t : clock_timer_t) (now : timespec) : timespec :=
  if t.running then now else t.stop

/-- `clock_timer_elapsed_ns` (timer.c lines 80-84): 0 on a `NULL`
timer, otherwise the clamped difference between the effective end and
the start. -/
def clock_timer_elapsed_ns (t : Option clock_timer_t) (now : timespec) : Int :=
  match t with
  | none => 0
  | some t => clock_timer_diff_ns (clock_timer_get_effective_end t now) t.start

/-!  Concrete schedulers used as inputs of counterexamples and witnesses. -/

/-- A legal task function that performs no scheduler-visible effect
(its C counterpart just returns). -/
def nop_body : task_body Nat := fun _ => []

/-- A scheduler observed mid-pass: one task occupying slot 0,
`current_task` pointing at that slot — exactly the state in which the
run loop invokes the slot-0 task. -/
def one_task_running : mj_scheduler Nat :=
  ⟨[some ⟨some nop_body, 0⟩, none, none], some 0, 1⟩

/-!  ## C10 — the timer never reports a negative elapsed time -/

/-- C10: `clock_timer_elapsed_ns` never returns a negative value: for
every timer state (including one whose recorded end time precedes its
start time) and every current clock value, the nanosecond difference is
clamped to at least 0. -/
theorem C10_elapsed_ns_nonneg (t : Option clock_timer_t) (now : timespec) :
    0 ≤ clock_timer_elapsed_ns t now := by
  cases t with
  | none => simp [clock_timer_elapsed_ns]
  | some t =>
    simp only [clock_timer_elapsed_ns, clock_timer_diff_ns]
    split <;> omega

/-!  ## C4 — `destroy` has no `Busy` check -/

/-- A scheduler with `task_count = 1 > 0` (capacity `MAX_TASKS`). -/
def c4_busy_sched : mj_scheduler Nat :=
  ⟨[some ⟨some nop_body, 0⟩, none, none], none, 1⟩

/-- C4 counterexample: on a scheduler with `count = 1 > 0`,
`mj_scheduler_destroy` succeeds (returns 0) and frees the scheduler —
it does not fail with `Busy`, and it does deallocate. -/
theorem C4_destroy_busy_counterexample :
    c4_busy_sched.task_count = 1 ∧
      mj_scheduler_destroy (some c4_busy_sched) = (0, [mj_event.free_scheduler]) := by
  exact ⟨rfl, rfl⟩

/-- C4 amended: `destroy` fails (with `EINVAL`) only on a null handle,
performing no deallocation there; on every non-null scheduler — whatever
its `count` — it frees the scheduler and succeeds.  There is no `Busy`
check. -/
theorem C4_destroy_no_busy_check (s : mj_scheduler σ) :
    mj_scheduler_destroy (some s) = (0, [mj_event.free_scheduler]) ∧
      mj_scheduler_destroy (none : Option (mj_scheduler σ)) = (-1, []) :=
  ⟨rfl, rfl⟩

/-!  ## C5 — `add` performs no argument validation -/

/-- C5 counterexample: adding a task whose run hook is `NULL` to a
fresh scheduler does not fail with `InvalidArgument`: it succeeds
(returns 0) and changes scheduler state (`task_count` becomes 1, the
null hook is stored in slot 0). -/
theorem C5_add_null_hook_counterexample :
    (mj_scheduler_task_add (mj_scheduler_create Nat 3) none 0).1 = 0 ∧
      (mj_scheduler_task_add (mj_scheduler_create Nat 3) none 0).2.task_count = 1 ∧
      nth (mj_scheduler_task_add (mj_scheduler_create Nat 3) none 0).2.task_list 0 =
        some (some ⟨none, 0⟩) :=
  ⟨rfl, rfl, rfl⟩

/-- C5 amended: `add` validates nothing: a null scheduler handle is
dereferenced rather than rejected (undefined behaviour), and a task
with a null run hook is accepted and stored.  On any non-full fresh
scheduler, adding a null-hook task succeeds and occupies slot 0. -/
theorem C5_add_accepts_null_hook (cap : Nat) (st : σ) (h : 0 < cap) :
    (mj_scheduler_task_add (mj_scheduler_create σ cap) none st).1 = 0 ∧
      nth (mj_scheduler_task_add (mj_scheduler_create σ cap) none st).2.task_list 0 =
        some (some ⟨none, st⟩) := by
  obtain ⟨c, rfl⟩ : ∃ c, cap = c + 1 := ⟨cap - 1, by omega⟩
  constructor <;>
    simp [mj_scheduler_task_add, mj_scheduler_create, List.replicate_succ, place_task, nth]

/-- Witness for C5 amended, at capacity `MAX_TASKS = 3`, state 7. -/
theorem C5_add_accepts_null_hook_witness :
    (mj_scheduler_task_add (mj_scheduler_create Nat MAX_TASKS) none 7).1 = 0 ∧
      nth (mj_scheduler_task_add (mj_scheduler_create Nat MAX_TASKS) none 7).2.task_list 0 =
        some (some ⟨none, 7⟩) :=
  C5_add_accepts_null_hook MAX_TASKS 7 (by decide)

/-!  ## C6 — `add` on a full registry fails and changes nothing -/

/-- C6: whenever `task_count` equals the capacity (the slot-array
length, i.e. `MAX_TASKS`), `add` fails — the capacity guard fires
before any allocation — and returns the scheduler byte-for-byte
unchanged: every slot and the count are exactly as before. -/
theorem C6_add_full_fails_unchanged (s : mj_scheduler σ) (fn : Option (task_body σ))
    (st : σ) (h : s.task_count = s.task_list.length) :
    mj_scheduler_task_add s fn st = (-1, s) := by
  simp [mj_scheduler_task_add, h]

/-- A full scheduler: capacity 1, one task, `task_count = 1`. -/
def c6_full_sched : mj_scheduler Nat :=
  ⟨[some ⟨some nop_body, 0⟩], none, 1⟩

/-- Witness for C6: adding to the concrete full scheduler fails with
`-1` and leaves it unchanged. -/
theorem C6_add_full_fails_unchanged_witness :
    mj_scheduler_task_add c6_full_sched (some nop_body) 5 = (-1, c6_full_sched) :=
  C6_add_full_fails_unchanged c6_full_sched (some nop_body) 5 rfl

/-!  ## C7 — `remove_current` outside a run invocation -/

/-- Shared helper: with `current_task == NULL` the remove call takes
its first guard and returns `-1` with the scheduler untouched. -/
lemma remove_of_current_none (s : mj_scheduler σ) (h : s.current_task = none) :
    mj_scheduler_task_remove s = (-1, s, []) := by
  simp [mj_scheduler_task_remove, h]

/-- C7: when no run callback is executing (`current_task == NULL`),
`mj_scheduler_task_remove` always fails with `-1` and performs no
change at all: the returned scheduler is the argument itself (every
slot, the count, and the current-task field untouched) and nothing is
freed. -/
theorem C7_remove_outside_run_fails (s : mj_scheduler σ) (h : s.current_task = none) :
    mj_scheduler_task_remove s = (-1, s, []) :=
  remove_of_current_none s h

/-- Witness for C7 on a concrete idle scheduler holding one task. -/
theorem C7_remove_outside_run_fails_witness :
    mj_scheduler_task_remove c4_busy_sched = (-1, c4_busy_sched, []) :=
  C7_remove_outside_run_fails c4_busy_sched rfl

/-!  ## C9 — a second `remove_current` in the same invocation fails -/

/-- C9: if a call of `mj_scheduler_task_remove` succeeds, the returned
state has `current_task == NULL` (a successful removal clears the
current-task reference before returning), so an immediately following
second call fails with `-1` and changes no scheduler state. -/
theorem C9_double_remove_second_fails (s s' : mj_scheduler σ) (evs : List mj_event)
    (h : mj_scheduler_task_remove s = (0, s', evs)) :
    s'.current_task = none ∧ mj_scheduler_task_remove s' = (-1, s', []) := by
  have hcur : s'.current_task = none := by
    unfold mj_scheduler_task_remove at h
    split at h
    · simp at h
    · split at h
      · simp only [Prod.mk.injEq] at h
        rw [← h.2.1]
      · simp at h
  exact ⟨hcur, remove_of_current_none s' hcur⟩

/-- Witness for C9: removing the running task of `one_task_running`
succeeds; the theorem then gives that the second call fails. -/
theorem C9_double_remove_second_fails_witness :
    (mj_scheduler_task_remove (mj_scheduler_task_remove one_task_running).2.1).1 = -1 := by
  have h := C9_double_remove_second_fails one_task_running
    ⟨[none, none, none], none, 0⟩ [mj_event.free_state, mj_event.free_task] rfl
  rw [show (mj_scheduler_task_remove one_task_running).2.1 =
    (⟨[none, none, none], none, 0⟩ : mj_scheduler Nat) from rfl, h.2]

/-!  ## C1 — visitation order within a pass -/

/-- Two do-nothing tasks registered through the API on a fresh
`MAX_TASKS`-capacity scheduler: `add` places them in slots 0 and 1
(ascending first-fit), slot 2 stays empty. -/
def c1_two_task_sched : mj_scheduler Nat :=
  (mj_scheduler_task_add
    (mj_scheduler_task_add (mj_scheduler_create Nat MAX_TASKS) (some nop_body) 0).2
    (some nop_body) 1).2

/-- C1: evaluation of the run loop's pass at the failing input.  With
tasks occupying slots 0 and 1, a single pass invokes slot 1's task
BEFORE slot 0's: the invocation trace is `[1, 0]`, because the C loop
iterates `for (i = MAX_TASKS - 1; i >= 0; i--)` — descending, not the
ascending order the specification (and the code's own comments
"runs oldest task first" / "newer tasks gets run after older") state. -/
theorem C1_pass_visits_descending :
    (mj_run_pass c1_two_task_sched).map Prod.snd = some [1, 0] := rfl

/-!  ## C3 — there is no cleanup hook -/

/-- C3 counterexample: removing the task of `one_task_running`
succeeds (the moment the specification says the cleanup callback must
run, exactly once), yet the removal emits zero callback invocations:
its event trace contains no `invoke_cleanup` at all — `mj_task` has no
cleanup field to begin with, so the count cannot be 1. -/
theorem C3_no_cleanup_invocation_counterexample :
    (mj_scheduler_task_remove one_task_running).1 = 0 ∧
      ((mj_scheduler_task_remove one_task_running).2.2.filter
        (fun e => e = mj_event.invoke_cleanup)).length = 0 :=
  ⟨rfl, rfl⟩

/-- C3 amended: `mj_task` stores only a run-function pointer and a
state pointer — no cleanup callback can be registered — and every
successful `mj_scheduler_task_remove` frees the task's state and then
the task record itself, invoking no user callback whatsoever. -/
theorem C3_remove_frees_without_callback (s : mj_scheduler σ)
    (h : (mj_scheduler_task_remove s).1 = 0) :
    (mj_scheduler_task_remove s).2.2 = [mj_event.free_state, mj_event.free_task] := by
  rcases hc : s.current_task with _ | i
  · simp [mj_scheduler_task_remove, hc] at h
  · rcases ht : nth s.task_list i with _ | tk
    · simp [mj_scheduler_task_remove, hc, ht] at h
    · rcases tk with _ | t
      · simp [mj_scheduler_task_remove, hc, ht] at h
      · simp [mj_scheduler_task_remove, hc, ht]

/-- Witness for C3 amended at the concrete mid-run scheduler. -/
theorem C3_remove_frees_without_callback_witness :
    (mj_scheduler_task_remove one_task_running).2.2 =
      [mj_event.free_state, mj_event.free_task] :=
  C3_remove_frees_without_callback one_task_running rfl

/-!  ## C8 — `count` equals the number of occupied slots

The invariant is proved for each primitive operation and then for every
state reachable by sequences of `create`, `add`, `run`, `remove`. -/

lemma filter_isSome_replicate_none (n : Nat) :
    ((List.replicate n (none : Option (mj_task σ))).filter Option.isSome).length = 0 := by
  induction n with
  | zero => rfl
  | succ n ih => simp [List.replicate_succ, List.filter_cons, ih]

/-- A successful first-fit placement raises the occupied-slot count by
exactly one. -/
lemma place_task_occupied (l : List (Option (mj_task σ))) (t : mj_task σ)
    (l' : List (Option (mj_task σ))) (h : place_task l t = some l') :
    (l'.filter Option.isSome).length = (l.filter Option.isSome).length + 1 := by
  induction l generalizing l' with
  | nil => simp [place_task] at h
  | cons a rest ih =>
    rcases a with _ | x
    · simp only [place_task, Option.some.injEq] at h
      subst h
      simp [List.filter_cons]
    · simp only [place_task, Option.map_eq_some'] at h
      rcases h with ⟨r', hr', rfl⟩
      simp [List.filter_cons, ih r' hr']

/-- Vacating an occupied slot lowers the occupied-slot count by one. -/
lemma setn_none_occupied (l : List (Option (mj_task σ))) (i : Nat) (t : mj_task σ)
    (h : nth l i = some (some t)) :
    ((setn l i none).filter Option.isSome).length + 1 = (l.filter Option.isSome).length := by
  induction l generalizing i with
  | nil => simp [nth] at h
  | cons a rest ih =>
    cases i with
    | zero =>
      simp only [nth, Option.some.injEq] at h
      subst h
      simp [setn, List.filter_cons]
    | succ n =>
      simp only [nth] at h
      rcases a with _ | x <;> simp [setn, List.filter_cons, ← ih n h]

/-- Overwriting an occupied slot with another task keeps the
occupied-slot count unchanged. -/
lemma setn_some_occupied (l : List (Option (mj_task σ))) (i : Nat) (t u : mj_task σ)
    (h : nth l i = some (some t)) :
    ((setn l i (some u)).filter Option.isSome).length = (l.filter Option.isSome).length := by
  induction l generalizing i with
  | nil => simp [nth] at h
  | cons a rest ih =>
    cases i with
    | zero =>
      simp only [nth, Option.some.injEq] at h
      subst h
      simp [setn, List.filter_cons]
    | succ n =>
      simp only [nth] at h
      rcases a with _ | x <;> simp [setn, List.filter_cons, ih n h]

lemma inv_create (cap : Nat) :
    (mj_scheduler_create σ cap).task_count = count_occupied (mj_scheduler_create σ cap) := by
  simp [mj_scheduler_create, count_occupied, filter_isSome_replicate_none]

lemma inv_add (s : mj_scheduler σ) (fn : Option (task_body σ)) (st : σ)
    (h : s.task_count = count_occupied s) :
    (mj_scheduler_task_add s fn st).2.task_count =
      count_occupied (mj_scheduler_task_add s fn st).2 := by
  unfold mj_scheduler_task_add
  split
  · exact h
  · rcases hp : place_task s.task_list (⟨fn, st⟩ : mj_task σ) with _ | l
    · simp only [hp]
      exact h
    · simp only [hp]
      simp only [count_occupied] at h ⊢
      rw [place_task_occupied s.task_list _ l hp, h]

lemma inv_remove (s : mj_scheduler σ) (h : s.task_count = count_occupied s) :
    (mj_scheduler_task_remove s).2.1.task_count =
      count_occupied (mj_scheduler_task_remove s).2.1 := by
  rcases hc : s.current_task with _ | i
  · rw [remove_of_current_none s hc]
    exact h
  · rcases ht : nth s.task_list i with _ | tk
    · simp only [mj_scheduler_task_remove, hc, ht]
      exact h
    · rcases tk with _ | t
      · simp only [mj_scheduler_task_remove, hc, ht]
        exact h
      · simp only [mj_scheduler_task_remove, hc, ht, count_occupied] at h ⊢
        have hocc := setn_none_occupied s.task_list i t ht
        split <;> omega

lemma inv_interp (i : Nat) (s : mj_scheduler σ) (e : task_eff σ)
    (h : s.task_count = count_occupied s) :
    (interp_eff i s e).task_count = count_occupied (interp_eff i s e) := by
  cases e with
  | setState v =>
    rcases ht : nth s.task_list i with _ | tk
    · simpa only [interp_eff, ht] using h
    · rcases tk with _ | t
      · simpa only [interp_eff, ht] using h
      · simp only [interp_eff, ht, count_occupied] at h ⊢
        rw [setn_some_occupied s.task_list i t _ ht]
        exact h
  | callRemove => exact inv_remove s h

lemma inv_foldl (i : Nat) (effs : List (task_eff σ)) (s : mj_scheduler σ)
    (h : s.task_count = count_occupied s) :
    (effs.foldl (fun acc e => interp_eff i acc e) s).task_count =
      count_occupied (effs.foldl (fun acc e => interp_eff i acc e) s) := by
  induction effs generalizing s with
  | nil => exact h
  | cons e rest ih => exact ih _ (inv_interp i s e h)

lemma inv_pass_loop (idxs : List Nat) (s s' : mj_scheduler σ) (tr : List Nat)
    (h : pass_loop s idxs = some (s', tr)) (hinv : s.task_count = count_occupied s) :
    s'.task_count = count_occupied s' := by
  induction idxs generalizing s s' tr with
  | nil =>
    simp only [pass_loop, Option.some.injEq, Prod.mk.injEq] at h
    exact h.1 ▸ hinv
  | cons i rest ih =>
    rcases ht : nth s.task_list i with _ | tk
    · simp only [pass_loop, ht] at h
      exact ih s s' tr h hinv
    · rcases tk with _ | t
      · simp only [pass_loop, ht] at h
        exact ih s s' tr h hinv
      · rcases hf : t.task with _ | fn
        · simp only [pass_loop, ht, hf] at h
          exact Option.noConfusion h
        · simp only [pass_loop, ht, hf] at h
          rcases hp : pass_loop
              (⟨((fn t.state).foldl (fun acc e => interp_eff i acc e)
                  ⟨s.task_list, some i, s.task_count⟩).task_list, none,
                ((fn t.state).foldl (fun acc e => interp_eff i acc e)
                  ⟨s.task_list, some i, s.task_count⟩).task_count⟩ : mj_scheduler σ) rest
              with _ | p
          · rw [hp] at h
            simp at h
          · rw [hp] at h
            rcases p with ⟨s4, tr'⟩
            simp only [Option.some.injEq, Prod.mk.injEq] at h
            have hmid := inv_foldl i (fn t.state)
              (⟨s.task_list, some i, s.task_count⟩ : mj_scheduler σ) hinv
            exact h.1 ▸ ih _ s4 tr' hp hmid

lemma inv_run (fuel : Nat) (s : mj_scheduler σ) (n : Nat) (s' : mj_scheduler σ)
    (h : mj_scheduler_run fuel s = some (n, s'))
    (hinv : s.task_count = count_occupied s) :
    s'.task_count = count_occupied s' := by
  induction fuel generalizing s n s' with
  | zero =>
    by_cases hc : s.task_count = 0
    · simp [mj_scheduler_run, hc] at h
      obtain ⟨-, hs⟩ := h
      subst hs
      exact hinv
    · simp [mj_scheduler_run, hc] at h
  | succ fuel ih =>
    by_cases hc : s.task_count = 0
    · simp [mj_scheduler_run, hc] at h
      obtain ⟨-, hs⟩ := h
      subst hs
      exact hinv
    · simp only [mj_scheduler_run, if_neg hc] at h
      rcases hp : mj_run_pass s with _ | p
      · simp only [hp] at h
        exact Option.noConfusion h
      · rcases p with ⟨sp, tr⟩
        simp only [hp] at h
        have hsp : sp.task_count = count_occupied sp :=
          inv_pass_loop (downFrom s.task_list.length) s sp tr hp hinv
        rcases hr : mj_scheduler_run fuel sp with _ | q
        · simp only [hr] at h
          exact Option.noConfusion h
        · rcases q with ⟨m, s''⟩
          simp only [hr, Option.some.injEq, Prod.mk.injEq] at h
          exact h.2 ▸ ih sp m s'' hr hsp

/-- The scheduler states reachable by a sequence of the repository's
operations: a fresh `mj_scheduler_create`, any `mj_scheduler_task_add`,
any `mj_scheduler_task_remove`, and any terminating `mj_scheduler_run`
(whose passes themselves invoke task bodies that may write their own
state and call remove). -/
inductive mj_reachable : mj_scheduler σ → Prop where
  | create (cap : Nat) : mj_reachable (mj_scheduler_create σ cap)
  | add (s : mj_scheduler σ) (fn : Option (task_body σ)) (st : σ) :
      mj_reachable s → mj_reachable (mj_scheduler_task_add s fn st).2
  | remove (s : mj_scheduler σ) :
      mj_reachable s → mj_reachable (mj_scheduler_task_remove s).2.1
  | run (s : mj_scheduler σ) (fuel n : Nat) (s' : mj_scheduler σ) :
      mj_reachable s → mj_scheduler_run fuel s = some (n, s') → mj_reachable s'

/-- C8: in every scheduler state reachable by a sequence of `create`,
`add`, `run` and `remove_current` operations, the `task_count` field
equals the number of non-empty slots of the registry. -/
theorem C8_count_matches_occupancy (s : mj_scheduler σ) (h : mj_reachable s) :
    s.task_count = count_occupied s := by
  induction h with
  | create cap => exact inv_create cap
  | add s fn st _ ih => exact inv_add s fn st ih
  | remove s _ ih => exact inv_remove s ih
  | run s fuel n s' _ hrun ih => exact inv_run fuel s n s' hrun ih

/-- Witness for C8 on the state reached by one `add` after `create`. -/
theorem C8_count_matches_occupancy_witness :
    (mj_scheduler_task_add (mj_scheduler_create Nat MAX_TASKS) (some nop_body) 0).2.task_count =
      count_occupied (mj_scheduler_task_add (mj_scheduler_create Nat MAX_TASKS)
        (some nop_body) 0).2 :=
  C8_count_matches_occupancy _ (mj_reachable.add _ _ _ (mj_reachable.create MAX_TASKS))

/-!  ## C2 — N self-removing tasks drain in exactly K passes

A task "that calls remove_current on exactly its K-th run invocation"
is modelled canonically: its state counts its completed invocations;
an invocation with `n` prior invocations either calls
`mj_scheduler_task_remove` (when it is the K-th) or records the new
count through its state pointer. -/

/-- The body of a task that self-removes on exactly its K-th
invocation (compare `increment`/`decrement` in main.c and
`demo_task_run` in demo_task.c, which all follow this shape). -/
def selfRemoveBody (K : Nat) : task_body Nat := fun n =>
  if n + 1 = K then [task_eff.callRemove] else [task_eff.setState (n + 1)]

/-- A self-removing task that has completed `j` invocations. -/
def c2_task (K j : Nat) : mj_task Nat :=
  ⟨some (selfRemoveBody K), j⟩

/-- The scheduler state between passes: `N` self-removing tasks in
slots `0..N-1` (each with `j` completed invocations), the remaining
`C - N` slots empty, nothing currently running. -/
def c2_state (C N K j : Nat) : mj_scheduler Nat :=
  ⟨List.replicate N (some (c2_task K j)) ++ List.replicate (C - N) none, none, N⟩

/-- `N` consecutive `mj_scheduler_task_add` calls registering
self-removing tasks (as the host would do before calling run). -/
def add_tasks (K : Nat) : Nat → mj_scheduler Nat → mj_scheduler Nat
  | 0, s => s
  | n + 1, s => (mj_scheduler_task_add (add_tasks K n s) (some (selfRemoveBody K)) 0).2

lemma nth_replicate (n j : Nat) (x : α) :
    nth (List.replicate n x) j = if j < n then some x else none := by
  induction n generalizing j with
  | zero => simp [nth]
  | succ n ih =>
    cases j with
    | zero => simp [List.replicate_succ, nth]
    | succ j => simp [List.replicate_succ, nth, ih, Nat.succ_lt_succ_iff]

lemma nth_append (l1 l2 : List α) (i : Nat) (h : l1.length ≤ i) :
    nth (l1 ++ l2) i = nth l2 (i - l1.length) := by
  induction l1 generalizing i with
  | nil => simp [nth]
  | cons a rest ih =>
    cases i with
    | zero => simp at h
    | succ n =>
      have h' : rest.length ≤ n := by simpa using h
      calc nth ((a :: rest) ++ l2) (n + 1) = nth (rest ++ l2) n := rfl
        _ = nth l2 (n - rest.length) := ih n h'
        _ = nth l2 (n + 1 - (a :: rest).length) := by
            congr 1
            simp only [List.length_cons]
            omega

lemma nth_replicate_append_self (m : Nat) (x : α) (rest : List α) :
    nth (List.replicate (m + 1) x ++ rest) m = some x := by
  induction m with
  | zero => rfl
  | succ m ih => simpa [List.replicate_succ, nth] using ih

lemma setn_replicate_append_self (m : Nat) (x v : α) (rest : List α) :
    setn (List.replicate (m + 1) x ++ rest) m v = List.replicate m x ++ v :: rest := by
  induction m with
  | zero => rfl
  | succ m ih =>
    show x :: setn (List.replicate (m + 1) x ++ rest) m v =
      x :: (List.replicate m x ++ v :: rest)
    rw [ih]

lemma replicate_append_cons (m : Nat) (x : α) (rest : List α) :
    List.replicate m x ++ x :: rest = List.replicate (m + 1) x ++ rest := by
  rw [List.replicate_succ', List.append_assoc]
  rfl

lemma place_task_replicate (n : Nat) (x t : mj_task σ) (rest : List (Option (mj_task σ))) :
    place_task (List.replicate n (some x) ++ none :: rest) t =
      some (List.replicate n (some x) ++ some t :: rest) := by
  induction n with
  | zero => rfl
  | succ n ih => simp [List.replicate_succ, place_task, ih]

/-- Registering `N ≤ C` self-removing tasks on a fresh scheduler fills
slots `0..N-1` in ascending first-fit order. -/
lemma add_tasks_eq (K C N : Nat) (hNC : N ≤ C) :
    add_tasks K N (mj_scheduler_create Nat C) = c2_state C N K 0 := by
  induction N with
  | zero => rfl
  | succ n ih =>
    rw [add_tasks, ih (by omega)]
    have hsub : C - n = (C - (n + 1)) + 1 := by omega
    have hguard : ¬ ((c2_state C n K 0).task_list.length ≤ (c2_state C n K 0).task_count) := by
      simp [c2_state]
      omega
    have hlist : (c2_state C n K 0).task_list =
        List.replicate n (some (c2_task K 0)) ++ none :: List.replicate (C - (n + 1)) none := by
      simp only [c2_state]
      rw [hsub, List.replicate_succ]
    have hplace := place_task_replicate n (c2_task K 0)
      (⟨some (selfRemoveBody K), 0⟩ : mj_task Nat) (List.replicate (C - (n + 1)) none)
    unfold mj_scheduler_task_add
    rw [if_neg hguard]
    simp only [hlist, hplace]
    show (⟨List.replicate n (some (c2_task K 0)) ++
        some (c2_task K 0) :: List.replicate (C - (n + 1)) none, none, n + 1⟩ :
        mj_scheduler Nat) = c2_state C (n + 1) K 0
    rw [replicate_append_cons]
    rfl

/-- Above slot index `N`, every slot of `c2_state` is empty. -/
lemma c2_empty_above (C N K j : Nat) : ∀ i, N ≤ i → ∀ t,
    (nth (c2_state C N K j).task_list i ≠ some (some t)) := by
  intro i hi t
  simp only [c2_state]
  rw [nth_append (List.replicate N (some (c2_task K j))) (List.replicate (C - N) none) i
    (by rw [List.length_replicate]; exact hi)]
  rw [nth_replicate]
  split
  · intro hcontra
    exact Option.noConfusion (Option.some.inj hcontra)
  · intro hcontra
    exact Option.noConfusion hcontra

/-- The pass skips the empty slots above `M` without any effect. -/
lemma pass_loop_skip_empty (s : mj_scheduler σ) (M C : Nat) (hM : M ≤ C)
    (hempty : ∀ i, M ≤ i → ∀ t, nth s.task_list i ≠ some (some t)) :
    pass_loop s (downFrom C) = pass_loop s (downFrom M) := by
  induction C with
  | zero =>
    have : M = 0 := by omega
    rw [this]
  | succ C ih =>
    rcases Nat.eq_or_lt_of_le hM with rfl | hlt
    · rfl
    · have hC := hempty C (by omega)
      simp only [downFrom, pass_loop]
      rcases hnc : nth s.task_list C with _ | tk
      · exact ih (by omega)
      · rcases tk with _ | t
        · exact ih (by omega)
        · exact absurd hnc (hC t)

/-- Unfolding of one occupied step of the pass. -/
lemma pass_step_occupied (s : mj_scheduler σ) (m : Nat) (rest : List Nat)
    (t : mj_task σ) (fn : task_body σ)
    (hnth : nth s.task_list m = some (some t)) (hfn : t.task = some fn) :
    pass_loop s (m :: rest) =
      (match pass_loop
          (⟨((fn t.state).foldl (fun acc e => interp_eff m acc e)
              ⟨s.task_list, some m, s.task_count⟩).task_list, none,
            ((fn t.state).foldl (fun acc e => interp_eff m acc e)
              ⟨s.task_list, some m, s.task_count⟩).task_count⟩ : mj_scheduler σ) rest with
        | some (s4, tr) => some (s4, m :: tr)
        | none => none) := by
  simp only [pass_loop, hnth, hfn]

/-- A non-final pass over the first `m` slots: every task records one
more invocation; slots, count and current-task are otherwise unchanged;
the invocation trace is `[m-1, ..., 0]`. -/
lemma pass_loop_bump (K j m : Nat) (rest : List (Option (mj_task Nat))) (cnt : Nat)
    (hj : j + 1 ≠ K) :
    pass_loop (⟨List.replicate m (some (c2_task K j)) ++ rest, none, cnt⟩ : mj_scheduler Nat)
        (downFrom m) =
      some (⟨List.replicate m (some (c2_task K (j + 1))) ++ rest, none, cnt⟩, downFrom m) := by
  induction m generalizing rest with
  | zero => rfl
  | succ m ih =>
    rw [show downFrom (m + 1) = m :: downFrom m from rfl]
    rw [pass_step_occupied _ m (downFrom m) (c2_task K j) (selfRemoveBody K)
      (nth_replicate_append_self m _ rest) rfl]
    have hbody : selfRemoveBody K ((c2_task K j).state) = [task_eff.setState (j + 1)] := by
      simp [selfRemoveBody, c2_task, hj]
    rw [hbody]
    simp only [List.foldl, interp_eff, nth_replicate_append_self, setn_replicate_append_self]
    rw [show (⟨(c2_task K j).task, j + 1⟩ : mj_task Nat) = c2_task K (j + 1) from rfl]
    rw [ih (some (c2_task K (j + 1)) :: rest)]
    rw [replicate_append_cons]

/-- The final pass over the first `m` slots: every task removes itself;
the slots empty out and the count drops by `m`. -/
lemma pass_loop_drain (K m : Nat) (rest : List (Option (mj_task Nat))) (cnt : Nat)
    (hK : 1 ≤ K) (hcnt : m ≤ cnt) :
    pass_loop (⟨List.replicate m (some (c2_task K (K - 1))) ++ rest, none, cnt⟩ :
        mj_scheduler Nat) (downFrom m) =
      some (⟨List.replicate m (none : Option (mj_task Nat)) ++ rest, none, cnt - m⟩,
        downFrom m) := by
  induction m generalizing rest cnt with
  | zero => rfl
  | succ m ih =>
    rw [show downFrom (m + 1) = m :: downFrom m from rfl]
    rw [pass_step_occupied _ m (downFrom m) (c2_task K (K - 1)) (selfRemoveBody K)
      (nth_replicate_append_self m _ rest) rfl]
    have hbody : selfRemoveBody K ((c2_task K (K - 1)).state) = [task_eff.callRemove] := by
      simp only [selfRemoveBody, c2_task]
      rw [if_pos (by omega)]
    rw [hbody]
    simp only [List.foldl, interp_eff, mj_scheduler_task_remove, nth_replicate_append_self,
      setn_replicate_append_self]
    rw [if_pos (by omega : cnt > 0)]
    rw [ih (none :: rest) (cnt - 1) (by omega)]
    rw [replicate_append_cons]
    have : cnt - 1 - m = cnt - (m + 1) := by omega
    rw [this]

/-- One non-final full pass of the run loop on `c2_state`. -/
lemma run_pass_bump (C N K j : Nat) (hNC : N ≤ C) (hj : j + 1 ≠ K) :
    mj_run_pass (c2_state C N K j) = some (c2_state C N K (j + 1), downFrom N) := by
  unfold mj_run_pass
  have hlen : (c2_state C N K j).task_list.length = C := by
    simp [c2_state]
    omega
  rw [hlen, pass_loop_skip_empty _ N C hNC (c2_empty_above C N K j)]
  exact pass_loop_bump K j N (List.replicate (C - N) none) N hj

/-- The final full pass of the run loop on `c2_state`: every task
removes itself, leaving an empty registry with `count = 0`. -/
lemma run_pass_drain (C N K : Nat) (hNC : N ≤ C) (hK : 1 ≤ K) :
    mj_run_pass (c2_state C N K (K - 1)) =
      some (⟨List.replicate C none, none, 0⟩, downFrom N) := by
  unfold mj_run_pass
  have hlen : (c2_state C N K (K - 1)).task_list.length = C := by
    simp [c2_state]
    omega
  rw [hlen, pass_loop_skip_empty _ N C hNC (c2_empty_above C N K (K - 1))]
  rw [show c2_state C N K (K - 1) =
      (⟨List.replicate N (some (c2_task K (K - 1))) ++ List.replicate (C - N) none,
        none, N⟩ : mj_scheduler Nat) from rfl]
  rw [pass_loop_drain K N (List.replicate (C - N) none) N hK (le_refl N)]
  rw [show (List.replicate N (none : Option (mj_task Nat)) ++ List.replicate (C - N) none)
      = List.replicate C none from by
    rw [← List.replicate_add]
    congr 1
    omega]
  rw [Nat.sub_self]

/-- A run on an empty registry exits at once, after zero passes. -/
lemma run_zero_tasks (fuel : Nat) (s : mj_scheduler σ) (h : s.task_count = 0) :
    mj_scheduler_run fuel s = some (0, s) := by
  cases fuel <;> simp [mj_scheduler_run, h]

/-- With `j` invocations already completed by each of the `N` tasks and
enough fuel, the while loop performs exactly the remaining `K - j`
passes and stops on an empty registry. -/
lemma run_counts_down (C N K : Nat) (hN1 : 1 ≤ N) (hNC : N ≤ C) (hK : 1 ≤ K) :
    ∀ fuel j, j < K → K - j ≤ fuel →
      mj_scheduler_run fuel (c2_state C N K j) =
        some (K - j, ⟨List.replicate C none, none, 0⟩) := by
  intro fuel
  induction fuel with
  | zero =>
    intro j hj hf
    omega
  | succ fuel ih =>
    intro j hj hf
    have hne : ¬ ((c2_state C N K j).task_count = 0) := by
      simp [c2_state]
      omega
    simp only [mj_scheduler_run, if_neg hne]
    by_cases hlast : j + 1 = K
    · have hj' : j = K - 1 := by omega
      subst hj'
      simp only [run_pass_drain C N K hNC hK]
      rw [run_zero_tasks fuel _ rfl]
      simp only [Option.some.injEq, Prod.mk.injEq]
      refine ⟨by omega, ?_⟩
      trivial
    · simp only [run_pass_bump C N K j hNC hlast]
      rw [ih (j + 1) (by omega) (by omega)]
      simp only [Option.some.injEq, Prod.mk.injEq]
      refine ⟨by omega, ?_⟩
      trivial

/-- C2: for every capacity `C`, every task count `N ≤ C` (with at
least one task, as required for the run loop to start) and every
`K ≥ 1`: registering `N` tasks that each call remove_current on
exactly their K-th run invocation and then calling run makes the while
loop terminate after exactly `K` passes, with `count = 0` afterwards
(for any fuel bound of at least `K` passes — in particular the pass
count does not depend on the bound). -/
theorem C2_self_removing_tasks_drain_in_K_passes (C N K fuel : Nat)
    (hN1 : 1 ≤ N) (hNC : N ≤ C) (hK : 1 ≤ K) (hfuel : K ≤ fuel) :
    (mj_scheduler_run fuel (add_tasks K N (mj_scheduler_create Nat C))).map
        (fun p => (p.1, p.2.task_count)) = some (K, 0) := by
  rw [add_tasks_eq K C N hNC]
  rw [run_counts_down C N K hN1 hNC hK fuel 0 (by omega) (by omega)]
  simp

/-- Witness for C2 at `C = MAX_TASKS = 3`, `N = 2` tasks, `K = 2`
invocations each, fuel 2: run exits after exactly 2 passes with
`count = 0`. -/
theorem C2_self_removing_tasks_drain_in_K_passes_witness :
    (mj_scheduler_run 2 (add_tasks 2 2 (mj_scheduler_create Nat MAX_TASKS))).map
        (fun p => (p.1, p.2.task_count)) = some (2, 0) :=
  C2_self_removing_tasks_drain_in_K_passes MAX_TASKS 2 2 2 (by decide) (by decide)
    (by decide) (by decide)

end Majjen
